import Mathlib

/-!
Verification of the resilient external-call orchestration layer of the
horizon-scanning CLI: the response normalizer (`llm_service._normalize_domain_map`,
`llm_service.parse_research`, `llm_service._heuristic_topics`), the domain-map
fallback injection inside `llm_service.generate_domain_map`, the scenario score
completion in `scenario_service.score_scenarios`, the retry/backoff/fallback
loop of `web_search_service.search`, the async job poll loop of
`llm_service._call_responses_api`, and `llm_service.configure_timings`.

Python values flowing through these functions are JSON-like; we embed them as
the inductive `JVal`.  Python dicts are association lists with unique keys and
insertion order preserved (`objGet` / `objSet`).  Operations that can raise a
Python exception are embedded in `Except PyErr`.  Calls to external services
(the OpenAI responses API, `requests.post`, `random.uniform`, `time.sleep`) are
modelled by passing the sequence of outcomes of those calls as an explicit
input and recording the actions taken in an explicit trace.
-/


/-- Embedding of Python/JSON values as they flow through the services. -/
inductive JVal where
  | null
  | bool (b : Bool)
  | num (q : ℚ)
  | str (s : String)
  | arr (xs : List JVal)
  | obj (fields : List (String × JVal))
  deriving Repr

/-- Python exceptions that the embedded code can raise. -/
inductive PyErr where
  | attributeError
  | keyError
  | typeError
  | httpError (status : Option Nat)
  deriving Repr, DecidableEq

/-- `d.get(k)`: first binding of `k` in the association list (Python dicts have
unique keys, so first binding is the binding). -/
def objGet : List (String × JVal) → String → Option JVal
  | [], _ => none
  | (k', v) :: rest, k => if k' == k then some v else objGet rest k

/-- `d[k] = v`: replace the binding of `k` in place, or append a fresh binding
at the end (Python dicts preserve insertion order). -/
def objSet (o : List (String × JVal)) (k : String) (v : JVal) : List (String × JVal) :=
  match o with
  | [] => [(k, v)]
  | (k', v') :: rest =>
      if k' == k then (k, v) :: rest else (k', v') :: objSet rest k v

/-- Python truthiness of a JSON-like value. -/
def truthy : JVal → Bool
  | .null => false
  | .bool b => b
  | .num q => q ≠ 0
  | .str s => s ≠ ""
  | .arr xs => !xs.isEmpty
  | .obj fs => !fs.isEmpty

/-! ### Domain-map normalization (`llm_service._normalize_domain_map`) -/

/-- `raw.get(band) or []` (Python `or`: a falsy value is replaced by `[]`). -/
def getOrEmptyList (fields : List (String × JVal)) (k : String) : JVal :=
  match objGet fields k with
  | some v => if truthy v then v else JVal.arr []
  | none => JVal.arr []

/-- `band_map = band if isinstance(band, dict) else {category: band if isinstance(band, list) else []}`
(lines 184–195 of `llm_service.py`). -/
def toBandMap (v : JVal) (category : String) : JVal :=
  match v with
  | .obj _ => v
  | .arr _ => JVal.obj [(category, v)]
  | _ => JVal.obj [(category, JVal.arr [])]

/-- An all-empty canonical band map `{category: []}`. -/
def emptyBand (category : String) : JVal := JVal.obj [(category, JVal.arr [])]

/-- `llm_service._normalize_domain_map(raw, category)` (lines 160–197). -/
def normalizeDomainMap (raw : JVal) (category : String) : JVal :=
  match raw with
  | .obj fields =>
      match objGet fields "topics" with
      | some (.obj _) => raw
      | _ =>
          let core := getOrEmptyList fields "Core"
          let adjacent := getOrEmptyList fields "Adjacent"
          let peripheral := getOrEmptyList fields "Peripheral"
          JVal.obj [("topics", JVal.obj
            [("Core", toBandMap core category),
             ("Adjacent", toBandMap adjacent category),
             ("Peripheral", toBandMap peripheral category)])]
  | _ =>
      JVal.obj [("topics", JVal.obj
        [("Core", emptyBand category), ("Adjacent", emptyBand category),
         ("Peripheral", emptyBand category)])]

/-! ### Fallback injection (`llm_service.generate_domain_map`, lines 220–232) -/

/-- One iteration of the fallback loop for a single `band`:
`band_list = normalized["topics"].get(band, {}).get(cat_key, [])`, and when
`band_list` is falsy,
`normalized["topics"].setdefault(band, {}).setdefault(cat_key, []).append(choice)`.
`.get` on a non-dict band value and `.append` on a non-list category value
raise `AttributeError`; the cases below resolve `get`/`setdefault`/`append` per
shape of the stored values. -/
def injectBand (T : List (String × JVal)) (band cat : String) (choice : JVal) :
    Except PyErr (List (String × JVal)) :=
  match objGet T band with
  | none =>
      -- band absent: band_list is [] (falsy); setdefault inserts {cat: [choice]}
      .ok (objSet T band (JVal.obj [(cat, JVal.arr [choice])]))
  | some (.obj m) =>
      match objGet m cat with
      | none =>
          -- category absent: band_list is [] (falsy); setdefault inserts, append
          .ok (objSet T band (JVal.obj (objSet m cat (JVal.arr [choice]))))
      | some v =>
          if truthy v then .ok T
          else
            match v with
            | .arr l => .ok (objSet T band (JVal.obj (objSet m cat (JVal.arr (l ++ [choice])))))
            | _ => .error PyErr.attributeError
  | some _ => .error PyErr.attributeError

/-- The post-normalization fallback loop of `generate_domain_map`
(lines 222–231): for each band in `["Core", "Adjacent", "Peripheral"]`, when the
band's list for the category is falsy, append
`source_topics[i % len(source_topics)]`.  Skipped entirely when
`source_topics` is empty; `normalized["topics"]` raises `KeyError` when the key
is absent and the `.get` chain raises on a non-dict `topics` value. -/
def injectFallback (normalized : JVal) (cat : String) (srcTopics : List JVal) :
    Except PyErr JVal :=
  if srcTopics.isEmpty then .ok normalized
  else
    match normalized with
    | .obj fields =>
        match objGet fields "topics" with
        | some (.obj T0) =>
            match injectBand T0 "Core" cat (srcTopics.getD (0 % srcTopics.length) JVal.null) with
            | .error e => .error e
            | .ok T1 =>
                match injectBand T1 "Adjacent" cat (srcTopics.getD (1 % srcTopics.length) JVal.null) with
                | .error e => .error e
                | .ok T2 =>
                    match injectBand T2 "Peripheral" cat (srcTopics.getD (2 % srcTopics.length) JVal.null) with
                    | .error e => .error e
                    | .ok T3 => .ok (JVal.obj (objSet fields "topics" (JVal.obj T3)))
        | some _ => .error PyErr.attributeError
        | none => .error PyErr.keyError
    | _ => .error PyErr.typeError

/-- The normalization-plus-fallback-injection tail of `generate_domain_map`
(lines 220–232), applied to the already-JSON-decoded upstream value `raw`. -/
def domainMapPipeline (raw : JVal) (cat : String) (srcTopics : List JVal) :
    Except PyErr JVal :=
  injectFallback (normalizeDomainMap raw cat) cat srcTopics

/-- Look up the topic list a domain map holds for `band`/`cat`. -/
def bandTopics (dm : JVal) (band cat : String) : Option JVal :=
  match dm with
  | .obj fields =>
      match objGet fields "topics" with
      | some (.obj T) =>
          match objGet T band with
          | some (.obj m) => objGet m cat
          | _ => none
      | _ => none
  | _ => none

/-! ### Well-formedness of domain-map inputs -/

/-- The topic list stored for `band`/`cat` inside a topics object. -/
def bandListOf (T : List (String × JVal)) (band cat : String) : Option JVal :=
  match objGet T band with
  | some (.obj m) => objGet m cat
  | _ => none

/-- Well-formedness of one band inside a canonical `topics` object: the band is
absent, or is a dict whose entry for the category (if any) is a list. -/
def bandWF (T : List (String × JVal)) (band cat : String) : Bool :=
  match objGet T band with
  | none => true
  | some (.obj m) =>
      match objGet m cat with
      | none => true
      | some (.arr _) => true
      | some _ => false
  | some _ => false

/-- Well-formedness of one band of a flat (non-canonical) input dict: any value
is fine except a truthy dict whose entry for the category is a non-list (such a
dict is passed through as the band map and later trips the injection step). -/
def flatBandWF (fields : List (String × JVal)) (band cat : String) : Bool :=
  match objGet fields band with
  | some (.obj m) =>
      if truthy (JVal.obj m) then
        match objGet m cat with
        | none => true
        | some (.arr _) => true
        | some _ => false
      else true
  | _ => true

/-- Well-formed domain-map input: non-dict input, a flat dict whose band
entries are well formed, or an already-canonical dict whose three bands are
well formed. -/
def wellFormedRaw (raw : JVal) (cat : String) : Bool :=
  match raw with
  | .obj fields =>
      match objGet fields "topics" with
      | some (.obj T) =>
          bandWF T "Core" cat && bandWF T "Adjacent" cat && bandWF T "Peripheral" cat
      | _ =>
          flatBandWF fields "Core" cat && flatBandWF fields "Adjacent" cat &&
            flatBandWF fields "Peripheral" cat
  | _ => true

/-- Per-band conclusion of the fallback-injection property: after injection the
band holds a non-empty list for the category; when the normalized map had an
empty or absent list there, the final list is exactly the injected choice; a
non-empty normalized list is kept unchanged. -/
def bandInjectedOK (normalized out : JVal) (band cat : String) (choice : JVal) : Prop :=
  ∃ l, bandTopics out band cat = some (.arr l) ∧ l ≠ [] ∧
    ((bandTopics normalized band cat = none ∨
      bandTopics normalized band cat = some (.arr [])) → l = [choice]) ∧
    (∀ l₀, bandTopics normalized band cat = some (.arr l₀) → l₀ ≠ [] → l = l₀)

/-- Canonical DomainMap shape check: each of the three bands holds a list for
the category. -/
def isCanonicalDM (dm : JVal) (cat : String) : Bool :=
  match bandTopics dm "Core" cat, bandTopics dm "Adjacent" cat,
      bandTopics dm "Peripheral" cat with
  | some (.arr _), some (.arr _), some (.arr _) => true
  | _, _, _ => false

/-- Inputs on which the pipeline is total: non-dict garbage, or a dict taken
through the flat `{Core/Adjacent/Peripheral}` branch (no dict-valued
`topics` key) whose band values are well formed. -/
def flatOrNonDict (raw : JVal) (cat : String) : Bool :=
  match raw with
  | .obj fields =>
      match objGet fields "topics" with
      | some (.obj _) => false
      | _ =>
          flatBandWF fields "Core" cat && flatBandWF fields "Adjacent" cat &&
            flatBandWF fields "Peripheral" cat
  | _ => true

/-! ### Scenario score completion (`scenario_service.score_scenarios`, lines 93–100)

Python computes the weighted sum on floats and rounds with `round(x, 2)`; the
embedding uses exact rationals, which agrees with the decimal arithmetic the
spec states (the dimension values in play are small integers, so the weighted
sum has an exact two-decimal value and no rounding tie arises). -/

/-- `round(x, 2)`. -/
def round2 (q : ℚ) : ℚ := (round (q * 100) : ℚ) / 100

/-- A value usable in Python arithmetic (`int`/`float`/`bool`); anything else
makes `item.get('impact',0)*0.3 + ...` raise `TypeError`. -/
def toNumQ : JVal → Option ℚ
  | .num q => some q
  | .bool b => some (if b then 1 else 0)
  | _ => none

/-- `item.get(k, 0)` coerced for arithmetic: an absent dimension is `0`, a
present non-numeric one is `none` (arithmetic raises, caught by the handler). -/
def dimVal (item : List (String × JVal)) (k : String) : Option ℚ :=
  match objGet item k with
  | none => some 0
  | some v => toNumQ v

/-- Lines 94–100 of `scenario_service.py` for one score item: when
`'overall_score' not in item`, store the rounded weighted sum
`impact*0.3 + plausibility*0.25 + novelty*0.2 + clarity*0.15 +
uncertainty_coverage*0.1`, or `0` when the arithmetic raises (the `except`
handler).  A non-dict item makes the loop body itself raise. -/
def ensureOverallScore : JVal → Except PyErr JVal
  | .obj fields =>
      match objGet fields "overall_score" with
      | some _ => .ok (.obj fields)
      | none =>
          let score : ℚ :=
            match dimVal fields "impact", dimVal fields "plausibility",
                dimVal fields "novelty", dimVal fields "clarity",
                dimVal fields "uncertainty_coverage" with
            | some i, some p, some n, some c, some u =>
                round2 (i * 0.3 + p * 0.25 + n * 0.2 + c * 0.15 + u * 0.1)
            | _, _, _, _, _ => 0
          .ok (.obj (objSet fields "overall_score" (.num score)))
  | .str s =>
      -- `'overall_score' not in item` is a substring test on a string item;
      -- when it misses, both assignment attempts raise TypeError
      if ("overall_score".toList).IsInfix s.toList then .ok (.str s)
      else .error PyErr.typeError
  | .arr xs =>
      -- membership on a list; when it misses, item['overall_score'] raises
      if xs.any (fun v => match v with | .str s => s == "overall_score" | _ => false)
      then .ok (.arr xs) else .error PyErr.typeError
  | _ => .error PyErr.typeError

/-- The `for item in data:` completion loop over the whole score list. -/
def ensureOverallScores : List JVal → Except PyErr (List JVal)
  | [] => .ok []
  | x :: xs =>
      match ensureOverallScore x with
      | .error e => .error e
      | .ok y =>
          match ensureOverallScores xs with
          | .error e => .error e
          | .ok ys => .ok (y :: ys)

/-! ### `llm_service.configure_timings` (lines 76–84) -/

/-- The process-wide timing/debug module state of `llm_service`. -/
structure TimingConfig where
  POLL_INTERVAL_SECONDS : Int
  MAX_POLL_CYCLES : Int
  DEBUG_DEEP_RESEARCH : Bool
  deriving Repr, DecidableEq

/-- Module defaults (lines 12–15). -/
def defaultTimings : TimingConfig :=
  { POLL_INTERVAL_SECONDS := 8, MAX_POLL_CYCLES := 120, DEBUG_DEEP_RESEARCH := false }

/-- `llm_service.configure_timings(poll_interval, max_cycles, debug)` acting on
the module state. -/
def configure_timings (st : TimingConfig) (poll_interval max_cycles : Option Int)
    (debug : Option Bool) : TimingConfig :=
  let st := match poll_interval with
    | some p => { st with POLL_INTERVAL_SECONDS := max 1 p }
    | none => st
  let st := match max_cycles with
    | some m => { st with MAX_POLL_CYCLES := max 1 m }
    | none => st
  match debug with
  | some d => { st with DEBUG_DEEP_RESEARCH := d }
  | none => st

/-! ### Async job poll loop (`llm_service._call_responses_api`, lines 102–113)

The remote `client.responses.retrieve` calls are modelled by the list of
statuses the service would return, one per poll, in order; a `completed`
status carries the text that `_extract_text_from_output` produces for its
payload (extraction is a separate pure step, orthogonal to the loop). -/

/-- One status returned by a poll of the responses API. -/
inductive PollStatus where
  | completed (extracted : String)
  | failed (detail : String)
  | cancelled (detail : String)
  | inProgress
  | queued
  deriving Repr, DecidableEq

/-- The f-string of line 110: `Error: Task {status}. Details: {error}`. -/
def taskErrorString (status detail : String) : String :=
  "Error: Task " ++ status ++ ". Details: " ++ detail

/-- The timeout sentinel of line 113. -/
def timeoutSentinel : String := "Error: Deep research timed out waiting for completion."

/-- The poll loop with `fuel` remaining cycles (`MAX_POLL_CYCLES - cycles`):
each iteration polls once, returns on a terminal status, and otherwise burns a
cycle and sleeps.  Returns the result text and the number of polls performed;
`none` when the supplied status list is shorter than the polls the loop makes
(a real service always answers, so runs of interest never hit it). -/
def pollGo : Nat → List PollStatus → Nat → Option (String × Nat)
  | 0, _, polls => some (timeoutSentinel, polls)
  | _ + 1, [], _ => none
  | fuel + 1, s :: rest, polls =>
      match s with
      | .completed t => some (t, polls + 1)
      | .failed d => some (taskErrorString "failed" d, polls + 1)
      | .cancelled d => some (taskErrorString "cancelled" d, polls + 1)
      | _ => pollGo fuel rest (polls + 1)

/-- The whole `while cycles < MAX_POLL_CYCLES` loop. -/
def pollLoop (maxCycles : Nat) (statuses : List PollStatus) : Option (String × Nat) :=
  pollGo maxCycles statuses 0

/-! ### Search client (`web_search_service.search`)

One network attempt = one `requests.post` + `raise_for_status` + `.json()`;
its outcome is supplied by the environment list `env`.  The jitter values that
`random.uniform(0, 0.2)` would return are supplied by `jitters`, one per
backoff sleep.  The trace records, in order, every attempt (with the endpoint
it targeted) and every sleep (with its duration in seconds). -/

/-- Which endpoint an attempt targets. -/
inductive Endpoint where
  | primary
  | fallback
  deriving Repr, DecidableEq

/-- Outcome of one network attempt, as decided by the environment. -/
inductive NetOutcome where
  | ok (results : List JVal)
  | netErr
  | httpErr (status : Option Nat)
  deriving Repr

/-- Observable actions of one `search` run. -/
inductive SearchEv where
  | attempt (ep : Endpoint)
  | sleep (dur : ℚ)
  deriving Repr, DecidableEq

/-- Result of a `search` run. -/
inductive SearchRes where
  | ok (results : List JVal)
  | raise (e : PyErr)
  | envShort
  deriving Repr

/-- `BASE_BACKOFF` (line 11). -/
def BASE_BACKOFF : ℚ := 0.4

/-- `status and 500 <= status < 600` (line 73): a `None` or `0` status is
falsy. -/
def is5xx : Option Nat → Bool
  | some s => decide (500 ≤ s) && decide (s < 600)
  | none => false

/-- Python `a or b` on JSON-like values. -/
def orJ (a : Option JVal) (alt : JVal) : JVal :=
  match a with
  | some v => if truthy v then v else alt
  | none => alt

/-- `" ".join(xs)` requires every element to be a string. -/
def allStrings : List JVal → Option (List String)
  | [] => some []
  | .str s :: rest => (allStrings rest).map (s :: ·)
  | _ :: _ => none

/-- Normalization of one upstream result (lines 41–53): title via
`r.get("title") or r.get("title", "N/A")` then `or "N/A"`; link from the first
truthy of `url`/`link`/`sourceURL` else `"N/A"`; snippet from joining an
`excerpts` list capped at 5000 characters, else `snippet`/`description`,
with `or "N/A"` applied last.  A non-dict result raises on `.get`; a non-string
excerpt makes `join` raise `TypeError`. -/
def normalizeResult : JVal → Except PyErr JVal
  | .obj f =>
      let title0 := (objGet f "title").getD (.str "N/A")
      let link := orJ (objGet f "url") (orJ (objGet f "link")
        (orJ (objGet f "sourceURL") (.str "N/A")))
      match objGet f "excerpts" with
      | some (.arr xs) =>
          match allStrings xs with
          | some ss =>
              let snippet := JVal.str ((" ".intercalate ss).take 5000)
              .ok (.obj [("title", if truthy title0 then title0 else .str "N/A"),
                ("snippet", if truthy snippet then snippet else .str "N/A"),
                ("link", link)])
          | none => .error PyErr.typeError
      | _ =>
          let snippet := orJ (objGet f "snippet") (orJ (objGet f "description") (.str ""))
          .ok (.obj [("title", if truthy title0 then title0 else .str "N/A"),
            ("snippet", if truthy snippet then snippet else .str "N/A"),
            ("link", link)])
  | _ => .error PyErr.attributeError

/-- `for r in raw_results: normalized.append(...)` (lines 40–53). -/
def normalizeResults : List JVal → Except PyErr (List JVal)
  | [] => .ok []
  | r :: rest =>
      match normalizeResult r with
      | .error e => .error e
      | .ok v =>
          match normalizeResults rest with
          | .error e => .error e
          | .ok vs => .ok (v :: vs)

/-- The `while attempt < max_retries` loop of `search` (lines 28–93), driven
by the environment.  A 404 on the primary endpoint switches to the fallback
endpoint and continues without touching `attempt`; network errors and 5xx
consume an attempt and sleep `BASE_BACKOFF * 2**(attempt-1) + jitter`; other
HTTP errors propagate; fallthrough returns `[]`. -/
def searchGo (maxRetries : Nat) (attempt : Nat) (ep : Endpoint)
    (env : List NetOutcome) (jitters : List ℚ) : SearchRes × List SearchEv :=
  if maxRetries ≤ attempt then (.ok [], [])
  else
    match env with
    | [] => (.envShort, [])
    | o :: envRest =>
        match o with
        | .ok rs =>
            match normalizeResults rs with
            | .ok out => (.ok out, [.attempt ep])
            | .error e => (.raise e, [.attempt ep])
        | .netErr =>
            if maxRetries ≤ attempt + 1 then (.ok [], [.attempt ep])
            else
              let dur := BASE_BACKOFF * 2 ^ attempt + jitters.headD 0
              let next := searchGo maxRetries (attempt + 1) ep envRest jitters.tail
              (next.1, .attempt ep :: .sleep dur :: next.2)
        | .httpErr status =>
            if status = some 404 ∧ ep = .primary then
              let next := searchGo maxRetries attempt .fallback envRest jitters
              (next.1, .attempt .primary :: next.2)
            else if is5xx status then
              if maxRetries ≤ attempt + 1 then (.ok [], [.attempt ep])
              else
                let dur := BASE_BACKOFF * 2 ^ attempt + jitters.headD 0
                let next := searchGo maxRetries (attempt + 1) ep envRest jitters.tail
                (next.1, .attempt ep :: .sleep dur :: next.2)
            else (.raise (.httpError status), [.attempt ep])
  termination_by env.length
  decreasing_by all_goals simp

/-- `web_search_service.search`: with no API key configured, return `[]`
without any network attempt; otherwise run the retry loop from attempt 0 on
the primary endpoint. -/
def searchFn (hasKey : Bool) (maxRetries : Nat) (env : List NetOutcome)
    (jitters : List ℚ) : SearchRes × List SearchEv :=
  if hasKey then searchGo maxRetries 0 .primary env jitters else (.ok [], [])

/-! ### Heading heuristic (`llm_service._heuristic_topics`, lines 236–260)

The anchored regexes `HEADING_PATTERN` (1-6 hashes then whitespace, or digits then a dot, or an
uppercase letter, 3+ characters from the class of letters, digits, space,
ampersand, slash, hyphen, then a colon)
and the strip pattern `^(#{1,6}\s+|\d+\.\s*)` are resolved into direct
character scans; since `:` , `.` and whitespace are outside the repeated
character classes, the greedy matches are the maximal runs computed below and
no other backtracking alternative exists.  Character classes are read over
ASCII (the report text the heuristic bootstraps from). -/

/-- Python `\s` (ASCII whitespace). -/
def isPySpace (c : Char) : Bool :=
  c = ' ' || c = '\t' || c = '\n' || c = '\r' || c = '\x0b' || c = '\x0c'

/-- `[A-Z]`. -/
def isUpperAZ (c : Char) : Bool := 'A' ≤ c && c ≤ 'Z'

/-- The repeated class of the third alternative: letters, digits, space,
ampersand, slash, hyphen. -/
def isHeadClassChar (c : Char) : Bool :=
  ('A' ≤ c && c ≤ 'Z') || ('a' ≤ c && c ≤ 'z') || c.isDigit ||
    c = ' ' || c = '&' || c = '/' || c = '-'

/-- Length of the maximal prefix satisfying `p`. -/
def countLeading (p : Char → Bool) : List Char → Nat
  | [] => 0
  | c :: cs => if p c then countLeading p cs + 1 else 0

/-- `HEADING_PATTERN.match(line)`: the line starts with 1–6 `#` then
whitespace, or digits then `.`, or `[A-Z]` then 3+ class characters then `:`. -/
def headingMatch (s : List Char) : Bool :=
  (let n := countLeading (· = '#') s
   decide (1 ≤ n) && decide (n ≤ 6) &&
     (match s.drop n with | c :: _ => isPySpace c | [] => false)) ||
  (let d := countLeading Char.isDigit s
   decide (1 ≤ d) &&
     (match s.drop d with | c :: _ => c = '.' | [] => false)) ||
  (match s with
   | c :: rest =>
       isUpperAZ c &&
         (let m := countLeading isHeadClassChar rest
          decide (3 ≤ m) &&
            (match rest.drop m with | c' :: _ => c' = ':' | [] => false))
   | [] => false)

/-- `re.sub(r"^(#{1,6}\s+|\d+\.\s*)", "", line)`: remove leading `#`s plus the
whitespace run after them, or leading digits, the dot, and the whitespace run
after it; otherwise leave the line unchanged. -/
def stripHeading (s : List Char) : List Char :=
  let n := countLeading (· = '#') s
  if decide (1 ≤ n) && decide (n ≤ 6) &&
      (match s.drop n with | c :: _ => isPySpace c | [] => false) then
    (s.drop n).dropWhile isPySpace
  else
    let d := countLeading Char.isDigit s
    if decide (1 ≤ d) &&
        (match s.drop d with | c :: _ => c = '.' | [] => false) then
      ((s.drop d).drop 1).dropWhile isPySpace
    else s

/-- `str.rstrip(':')`. -/
def rstripColon (s : List Char) : List Char :=
  (s.reverse.dropWhile (· = ':')).reverse

/-- `str.strip()` (whitespace on both ends). -/
def stripWS (s : List Char) : List Char :=
  ((s.dropWhile isPySpace).reverse.dropWhile isPySpace).reverse

/-- The stoplist of line 254. -/
def topicStoplist : List (List Char) :=
  ["introduction".toList, "conclusion".toList, "executive summary".toList]

/-- The scan loop of `_heuristic_topics`: strip each line, skip empty ones,
keep heading candidates of cleaned length 3–120 whose lowercase key is neither
in the stoplist nor already seen, and stop right after the topic list reaches
`maxTopics`. -/
def heuristicTopicsGo (lines : List (List Char)) (maxTopics : Nat)
    (seen : List (List Char)) (topics : List (List Char)) : List (List Char) :=
  match lines with
  | [] => topics
  | ln :: rest =>
      let line := stripWS ln
      if line.isEmpty then heuristicTopicsGo rest maxTopics seen topics
      else if headingMatch line then
        let cleaned := stripWS (rstripColon (stripHeading line))
        let key := cleaned.map Char.toLower
        if 3 ≤ cleaned.length ∧ cleaned.length ≤ 120 ∧
            key ∉ topicStoplist ∧ key ∉ seen then
          let topics' := topics ++ [cleaned]
          if maxTopics ≤ topics'.length then topics'
          else heuristicTopicsGo rest maxTopics (seen ++ [key]) topics'
        else heuristicTopicsGo rest maxTopics seen topics
      else heuristicTopicsGo rest maxTopics seen topics

/-- `dr_text.splitlines()` for newline-separated text (a trailing empty
segment, which Python's `splitlines` omits, is blank and is skipped by the
scan loop anyway). -/
def splitNLGo : List Char → List Char → List (List Char)
  | [], cur => [cur.reverse]
  | c :: cs, cur =>
      if c = '\n' then cur.reverse :: splitNLGo cs [] else splitNLGo cs (c :: cur)

/-- `llm_service._heuristic_topics(dr_text, max_topics=12)`. -/
def heuristicTopics (dr_text : String) (maxTopics : Nat := 12) : List String :=
  (heuristicTopicsGo (splitNLGo dr_text.toList []) maxTopics [] []).map
    (fun cs => String.mk cs)

/-! ### `llm_service.parse_research` (lines 131–157)

`json.loads` and the fenced-block regex plus reparse are the JSON-module
boundary: their outcome enters the model as `direct` (the direct parse of the
reply, `none` on `JSONDecodeError`) and `fenced` (the parse of the fenced
block, `none` when no block matches or its parse fails), consulted in that
order exactly as lines 140–150 do. -/

/-- The value `data` holds after the parse attempts of lines 140–150. -/
def extractData (direct fenced : Option JVal) : Option JVal :=
  match direct with
  | some v => some v
  | none => fenced

/-- The three-key default record of line 152. -/
def defaultParsedFields : List (String × JVal) :=
  [("topics", JVal.arr []), ("entities", JVal.arr []), ("concepts", JVal.arr [])]

/-- `parse_research` after the reply has gone through the JSON module: a
non-dict `data` is replaced by the three-key default (line 151–152), then
`topics` is backfilled by the heading heuristic when it is falsy and `dr_text`
is non-empty and not an `Error:`-prefixed sentinel (lines 155–156). -/
def parse_research_post (direct fenced : Option JVal) (dr_text : String) : JVal :=
  let f : List (String × JVal) :=
    match extractData direct fenced with
    | some (.obj f) => f
    | _ => defaultParsedFields
  if ¬ truthy ((objGet f "topics").getD .null) ∧ dr_text ≠ "" ∧
      ¬ dr_text.startsWith "Error:" then
    .obj (objSet f "topics" (.arr ((heuristicTopics dr_text 12).map JVal.str)))
  else .obj f

/-- Key presence in a record. -/
def hasKey (v : JVal) (k : String) : Bool :=
  match v with
  | .obj f => (objGet f k).isSome
  | _ => false

/-! ### Theorems -/

theorem objGet_objSet_self (o : List (String × JVal)) (k : String) (v : JVal) :
    objGet (objSet o k v) k = some v := by
  induction o with
  | nil => simp [objGet, objSet]
  | cons p rest ih =>
      obtain ⟨k', v'⟩ := p
      by_cases h : k' = k
      · simp [objGet, objSet, h]
      · simp [objGet, objSet, h, ih]

theorem objGet_objSet_ne (o : List (String × JVal)) (k k' : String) (v : JVal)
    (h : k ≠ k') : objGet (objSet o k v) k' = objGet o k' := by
  induction o with
  | nil => simp [objGet, objSet, h]
  | cons p rest ih =>
      obtain ⟨k₀, v₀⟩ := p
      by_cases h0 : k₀ = k
      · subst h0
        simp [objGet, objSet, h]
      · by_cases h1 : k₀ = k'
        · subst h1
          simp [objGet, objSet, h0]
        · simp [objGet, objSet, h0, h1, ih]

theorem injectBand_spec (T : List (String × JVal)) (band cat : String) (choice : JVal)
    (h : bandWF T band cat = true) :
    ∃ T', injectBand T band cat choice = .ok T' ∧
      (∀ b, b ≠ band → objGet T' b = objGet T b) ∧
      ∃ m' l, objGet T' band = some (.obj m') ∧ objGet m' cat = some (.arr l) ∧ l ≠ [] ∧
        ((bandListOf T band cat = none ∨ bandListOf T band cat = some (.arr [])) →
          l = [choice]) ∧
        (∀ l₀, bandListOf T band cat = some (.arr l₀) → l₀ ≠ [] → l = l₀) := by
  rcases hT : objGet T band with _ | v
  · -- band absent
    refine ⟨objSet T band (JVal.obj [(cat, JVal.arr [choice])]),
      by simp [injectBand, hT], fun b hb => objGet_objSet_ne _ _ _ _ (Ne.symm hb),
      [(cat, JVal.arr [choice])], [choice], objGet_objSet_self _ _ _,
      by simp [objGet], by simp, fun _ => rfl, ?_⟩
    intro l₀ hl₀
    simp [bandListOf, hT] at hl₀
  · rcases v with _ | b | q | s | l | m
    · simp [bandWF, hT] at h
    · simp [bandWF, hT] at h
    · simp [bandWF, hT] at h
    · simp [bandWF, hT] at h
    · simp [bandWF, hT] at h
    · -- band is a dict m
      rcases hm : objGet m cat with _ | v
      · -- category absent in the band dict
        refine ⟨objSet T band (JVal.obj (objSet m cat (JVal.arr [choice]))),
          by simp [injectBand, hT, hm], fun b hb => objGet_objSet_ne _ _ _ _ (Ne.symm hb),
          objSet m cat (JVal.arr [choice]), [choice], objGet_objSet_self _ _ _,
          objGet_objSet_self _ _ _, by simp, fun _ => rfl, ?_⟩
        intro l₀ hl₀
        simp [bandListOf, hT, hm] at hl₀
      · rcases v with _ | b | q | s | l | m'
        · simp [bandWF, hT, hm] at h
        · simp [bandWF, hT, hm] at h
        · simp [bandWF, hT, hm] at h
        · simp [bandWF, hT, hm] at h
        · -- category holds a list l
          by_cases hne : l = []
          · subst hne
            refine ⟨objSet T band (JVal.obj (objSet m cat (JVal.arr ([] ++ [choice])))),
              by simp [injectBand, hT, hm, truthy], fun b hb => objGet_objSet_ne _ _ _ _ (Ne.symm hb),
              objSet m cat (JVal.arr ([] ++ [choice])), [] ++ [choice], objGet_objSet_self _ _ _,
              objGet_objSet_self _ _ _, by simp, fun _ => by simp, ?_⟩
            intro l₀ hl₀ hne₀
            simp [bandListOf, hT, hm] at hl₀
            exact absurd hl₀ hne₀
          · have htr : truthy (JVal.arr l) = true := by simp [truthy, hne]
            refine ⟨T, by simp [injectBand, hT, hm, htr], fun b _ => rfl,
              m, l, hT, hm, hne, ?_, ?_⟩
            · intro hc
              rcases hc with hc | hc <;> simp [bandListOf, hT, hm] at hc
              exact absurd hc hne
            · intro l₀ hl₀ _
              simp [bandListOf, hT, hm] at hl₀
              exact hl₀
        · simp [bandWF, hT, hm] at h

theorem bandWF_congr (T T' : List (String × JVal)) (band cat : String)
    (h : objGet T' band = objGet T band) : bandWF T' band cat = bandWF T band cat := by
  unfold bandWF
  rw [h]

theorem bandListOf_congr (T T' : List (String × JVal)) (band cat : String)
    (h : objGet T' band = objGet T band) : bandListOf T' band cat = bandListOf T band cat := by
  unfold bandListOf
  rw [h]

theorem toBandMap_wf (fields : List (String × JVal)) (band cat : String)
    (h : flatBandWF fields band cat = true) :
    ∃ m, toBandMap (getOrEmptyList fields band) cat = .obj m ∧
      (objGet m cat = none ∨ ∃ l, objGet m cat = some (.arr l)) := by
  rcases hv : objGet fields band with _ | v
  · exact ⟨[(cat, JVal.arr [])], by simp [getOrEmptyList, hv, toBandMap],
      Or.inr ⟨[], by simp [objGet]⟩⟩
  · rcases v with _ | b | q | s | l | m
    · exact ⟨[(cat, JVal.arr [])], by simp [getOrEmptyList, hv, truthy, toBandMap],
        Or.inr ⟨[], by simp [objGet]⟩⟩
    · by_cases hb : b
      · subst hb
        exact ⟨[(cat, JVal.arr [])], by simp [getOrEmptyList, hv, truthy, toBandMap],
          Or.inr ⟨[], by simp [objGet]⟩⟩
      · simp only [Bool.not_eq_true] at hb
        subst hb
        exact ⟨[(cat, JVal.arr [])], by simp [getOrEmptyList, hv, truthy, toBandMap],
          Or.inr ⟨[], by simp [objGet]⟩⟩
    · by_cases hq : q = 0
      · subst hq
        exact ⟨[(cat, JVal.arr [])], by simp [getOrEmptyList, hv, truthy, toBandMap],
          Or.inr ⟨[], by simp [objGet]⟩⟩
      · exact ⟨[(cat, JVal.arr [])], by simp [getOrEmptyList, hv, truthy, hq, toBandMap],
          Or.inr ⟨[], by simp [objGet]⟩⟩
    · by_cases hs : s = ""
      · subst hs
        exact ⟨[(cat, JVal.arr [])], by simp [getOrEmptyList, hv, truthy, toBandMap],
          Or.inr ⟨[], by simp [objGet]⟩⟩
      · exact ⟨[(cat, JVal.arr [])], by simp [getOrEmptyList, hv, truthy, hs, toBandMap],
          Or.inr ⟨[], by simp [objGet]⟩⟩
    · by_cases hl : l = []
      · subst hl
        exact ⟨[(cat, JVal.arr [])], by simp [getOrEmptyList, hv, truthy, toBandMap],
          Or.inr ⟨[], by simp [objGet]⟩⟩
      · exact ⟨[(cat, JVal.arr l)], by simp [getOrEmptyList, hv, truthy, hl, toBandMap],
          Or.inr ⟨l, by simp [objGet]⟩⟩
    · by_cases hm : m = []
      · subst hm
        exact ⟨[(cat, JVal.arr [])], by simp [getOrEmptyList, hv, truthy, toBandMap],
          Or.inr ⟨[], by simp [objGet]⟩⟩
      · have htr : truthy (JVal.obj m) = true := by simp [truthy, hm]
        refine ⟨m, by simp [getOrEmptyList, hv, htr, toBandMap], ?_⟩
        simp only [flatBandWF, hv, htr, if_true] at h
        rcases hc : objGet m cat with _ | w
        · exact Or.inl rfl
        · rw [hc] at h
          rcases w with _ | b | q | s | l | m'
          · simp at h
          · simp at h
          · simp at h
          · simp at h
          · exact Or.inr ⟨l, rfl⟩
          · simp at h

theorem bandWF_of_parts (T : List (String × JVal)) (band cat : String)
    (m : List (String × JVal)) (hT : objGet T band = some (.obj m))
    (h : objGet m cat = none ∨ ∃ l, objGet m cat = some (.arr l)) :
    bandWF T band cat = true := by
  rcases h with h | ⟨l, h⟩ <;> simp [bandWF, hT, h]

theorem objGet_triple_core (x y z : JVal) :
    objGet [("Core", x), ("Adjacent", y), ("Peripheral", z)] "Core" = some x := rfl

theorem objGet_triple_adj (x y z : JVal) :
    objGet [("Core", x), ("Adjacent", y), ("Peripheral", z)] "Adjacent" = some y := rfl

theorem objGet_triple_per (x y z : JVal) :
    objGet [("Core", x), ("Adjacent", y), ("Peripheral", z)] "Peripheral" = some z := rfl

theorem normalize_flat (fields : List (String × JVal)) (cat : String)
    (hts : ∀ T, objGet fields "topics" ≠ some (.obj T)) :
    normalizeDomainMap (.obj fields) cat = JVal.obj [("topics", JVal.obj
      [("Core", toBandMap (getOrEmptyList fields "Core") cat),
       ("Adjacent", toBandMap (getOrEmptyList fields "Adjacent") cat),
       ("Peripheral", toBandMap (getOrEmptyList fields "Peripheral") cat)])] := by
  rcases h : objGet fields "topics" with _ | v
  · simp [normalizeDomainMap, h]
  · rcases v with _ | b | q | s | l | T
    · simp [normalizeDomainMap, h]
    · simp [normalizeDomainMap, h]
    · simp [normalizeDomainMap, h]
    · simp [normalizeDomainMap, h]
    · simp [normalizeDomainMap, h]
    · exact absurd h (hts T)

theorem normalize_canonical (fields : List (String × JVal)) (cat : String)
    (T : List (String × JVal)) (h : objGet fields "topics" = some (.obj T)) :
    normalizeDomainMap (.obj fields) cat = .obj fields := by
  simp [normalizeDomainMap, h]

theorem normalize_wf (raw : JVal) (cat : String) (h : wellFormedRaw raw cat = true) :
    ∃ fields T, normalizeDomainMap raw cat = .obj fields ∧
      objGet fields "topics" = some (.obj T) ∧
      bandWF T "Core" cat = true ∧ bandWF T "Adjacent" cat = true ∧
      bandWF T "Peripheral" cat = true := by
  have hEmptyWF : ∀ (T : List (String × JVal)) (band : String),
      objGet T band = some (emptyBand cat) → bandWF T band cat = true := by
    intro T band hT
    exact bandWF_of_parts T band cat [(cat, JVal.arr [])] hT (Or.inr ⟨[], by simp [objGet]⟩)
  rcases raw with _ | b | q | s | l | fields
  · exact ⟨_, _, rfl, rfl, hEmptyWF _ _ rfl, hEmptyWF _ _ rfl, hEmptyWF _ _ rfl⟩
  · exact ⟨_, _, rfl, rfl, hEmptyWF _ _ rfl, hEmptyWF _ _ rfl, hEmptyWF _ _ rfl⟩
  · exact ⟨_, _, rfl, rfl, hEmptyWF _ _ rfl, hEmptyWF _ _ rfl, hEmptyWF _ _ rfl⟩
  · exact ⟨_, _, rfl, rfl, hEmptyWF _ _ rfl, hEmptyWF _ _ rfl, hEmptyWF _ _ rfl⟩
  · exact ⟨_, _, rfl, rfl, hEmptyWF _ _ rfl, hEmptyWF _ _ rfl, hEmptyWF _ _ rfl⟩
  · rcases hts : objGet fields "topics" with _ | v
    · -- flat input without a 'topics' key
      simp only [wellFormedRaw, hts] at h
      rw [Bool.and_eq_true, Bool.and_eq_true] at h
      obtain ⟨m1, hm1, hwf1⟩ := toBandMap_wf fields "Core" cat h.1.1
      obtain ⟨m2, hm2, hwf2⟩ := toBandMap_wf fields "Adjacent" cat h.1.2
      obtain ⟨m3, hm3, hwf3⟩ := toBandMap_wf fields "Peripheral" cat h.2
      refine ⟨_, _, normalize_flat fields cat (fun T hT => by rw [hts] at hT; cases hT), rfl,
        ?_, ?_, ?_⟩
      · exact bandWF_of_parts _ _ _ m1 (by rw [objGet_triple_core, hm1]) hwf1
      · exact bandWF_of_parts _ _ _ m2 (by rw [objGet_triple_adj, hm2]) hwf2
      · exact bandWF_of_parts _ _ _ m3 (by rw [objGet_triple_per, hm3]) hwf3
    · rcases v with _ | b | q | s | l | T
      case obj =>
        -- already-canonical input: returned unchanged
        simp only [wellFormedRaw, hts] at h
        rw [Bool.and_eq_true, Bool.and_eq_true] at h
        exact ⟨fields, T, normalize_canonical fields cat T hts, hts, h.1.1, h.1.2, h.2⟩
      all_goals {
        simp only [wellFormedRaw, hts] at h
        rw [Bool.and_eq_true, Bool.and_eq_true] at h
        obtain ⟨m1, hm1, hwf1⟩ := toBandMap_wf fields "Core" cat h.1.1
        obtain ⟨m2, hm2, hwf2⟩ := toBandMap_wf fields "Adjacent" cat h.1.2
        obtain ⟨m3, hm3, hwf3⟩ := toBandMap_wf fields "Peripheral" cat h.2
        refine ⟨_, _, normalize_flat fields cat (fun T hT => by rw [hts] at hT; cases hT), rfl,
          ?_, ?_, ?_⟩
        · exact bandWF_of_parts _ _ _ m1 (by rw [objGet_triple_core, hm1]) hwf1
        · exact bandWF_of_parts _ _ _ m2 (by rw [objGet_triple_adj, hm2]) hwf2
        · exact bandWF_of_parts _ _ _ m3 (by rw [objGet_triple_per, hm3]) hwf3 }

theorem bandTopics_eq_bandListOf (fields T : List (String × JVal)) (band cat : String)
    (h : objGet fields "topics" = some (.obj T)) :
    bandTopics (.obj fields) band cat = bandListOf T band cat := by
  simp [bandTopics, bandListOf, h]

theorem injectFallback_spec (fields T : List (String × JVal)) (cat : String)
    (srcTopics : List JVal) (hne : srcTopics ≠ [])
    (hT : objGet fields "topics" = some (.obj T))
    (h1 : bandWF T "Core" cat = true) (h2 : bandWF T "Adjacent" cat = true)
    (h3 : bandWF T "Peripheral" cat = true) :
    ∃ out, injectFallback (.obj fields) cat srcTopics = .ok out ∧
      bandInjectedOK (.obj fields) out "Core" cat
        (srcTopics.getD (0 % srcTopics.length) JVal.null) ∧
      bandInjectedOK (.obj fields) out "Adjacent" cat
        (srcTopics.getD (1 % srcTopics.length) JVal.null) ∧
      bandInjectedOK (.obj fields) out "Peripheral" cat
        (srcTopics.getD (2 % srcTopics.length) JVal.null) := by
  have hnem : srcTopics.isEmpty = false := by
    cases srcTopics with
    | nil => exact absurd rfl hne
    | cons a t => rfl
  obtain ⟨T1, e1, f1, m1, l1, g1, g1c, hl1, hc1, hp1⟩ :=
    injectBand_spec T "Core" cat (srcTopics.getD (0 % srcTopics.length) JVal.null) h1
  have h2' : bandWF T1 "Adjacent" cat = true := by
    rw [bandWF_congr T T1 "Adjacent" cat (f1 "Adjacent" (by decide))]; exact h2
  obtain ⟨T2, e2, f2, m2, l2, g2, g2c, hl2, hc2, hp2⟩ :=
    injectBand_spec T1 "Adjacent" cat (srcTopics.getD (1 % srcTopics.length) JVal.null) h2'
  have h3' : bandWF T2 "Peripheral" cat = true := by
    rw [bandWF_congr T1 T2 "Peripheral" cat (f2 "Peripheral" (by decide)),
      bandWF_congr T T1 "Peripheral" cat (f1 "Peripheral" (by decide))]
    exact h3
  obtain ⟨T3, e3, f3, m3, l3, g3, g3c, hl3, hc3, hp3⟩ :=
    injectBand_spec T2 "Peripheral" cat (srcTopics.getD (2 % srcTopics.length) JVal.null) h3'
  refine ⟨.obj (objSet fields "topics" (.obj T3)), ?_, ?_, ?_, ?_⟩
  · simp only [injectFallback, hnem, Bool.false_eq_true, if_false, hT, e1, e2, e3]
  · -- Core: injected in T1, untouched by the later two bands
    have hout : bandTopics (.obj (objSet fields "topics" (.obj T3))) "Core" cat
        = objGet m1 cat := by
      rw [bandTopics_eq_bandListOf _ T3 _ _ (objGet_objSet_self _ _ _)]
      unfold bandListOf
      rw [f3 "Core" (by decide), f2 "Core" (by decide), g1]
    refine ⟨l1, by rw [hout]; exact g1c, hl1, ?_, ?_⟩
    · intro hc
      rw [bandTopics_eq_bandListOf fields T "Core" cat hT] at hc
      exact hc1 hc
    · intro l₀ h₀ hn₀
      rw [bandTopics_eq_bandListOf fields T "Core" cat hT] at h₀
      exact hp1 l₀ h₀ hn₀
  · -- Adjacent: injected in T2, untouched by the Peripheral pass
    have hbl : bandListOf T1 "Adjacent" cat = bandListOf T "Adjacent" cat :=
      bandListOf_congr T T1 "Adjacent" cat (f1 "Adjacent" (by decide))
    have hout : bandTopics (.obj (objSet fields "topics" (.obj T3))) "Adjacent" cat
        = objGet m2 cat := by
      rw [bandTopics_eq_bandListOf _ T3 _ _ (objGet_objSet_self _ _ _)]
      unfold bandListOf
      rw [f3 "Adjacent" (by decide), g2]
    refine ⟨l2, by rw [hout]; exact g2c, hl2, ?_, ?_⟩
    · intro hc
      rw [bandTopics_eq_bandListOf fields T "Adjacent" cat hT, ← hbl] at hc
      exact hc2 hc
    · intro l₀ h₀ hn₀
      rw [bandTopics_eq_bandListOf fields T "Adjacent" cat hT, ← hbl] at h₀
      exact hp2 l₀ h₀ hn₀
  · -- Peripheral: injected in T3
    have hbl : bandListOf T2 "Peripheral" cat = bandListOf T "Peripheral" cat := by
      rw [bandListOf_congr T1 T2 "Peripheral" cat (f2 "Peripheral" (by decide)),
        bandListOf_congr T T1 "Peripheral" cat (f1 "Peripheral" (by decide))]
    have hout : bandTopics (.obj (objSet fields "topics" (.obj T3))) "Peripheral" cat
        = objGet m3 cat := by
      rw [bandTopics_eq_bandListOf _ T3 _ _ (objGet_objSet_self _ _ _)]
      unfold bandListOf
      rw [g3]
    refine ⟨l3, by rw [hout]; exact g3c, hl3, ?_, ?_⟩
    · intro hc
      rw [bandTopics_eq_bandListOf fields T "Peripheral" cat hT, ← hbl] at hc
      exact hc3 hc
    · intro l₀ h₀ hn₀
      rw [bandTopics_eq_bandListOf fields T "Peripheral" cat hT, ← hbl] at h₀
      exact hp3 l₀ h₀ hn₀

/-- C1: for every well-formed domain-map input and non-empty source topic
list, the map returned by `generate_domain_map`'s
normalization-plus-fallback-injection step has a non-empty topic list for the
category in each band Core, Adjacent, Peripheral; a band whose list was empty
(or absent) after normalization ends up with exactly the single injected topic
`source_topics[band_index % len(source_topics)]`, and a non-empty normalized
band list is kept unchanged. -/
theorem generate_domain_map_fallback_injection (raw : JVal) (cat : String)
    (srcTopics : List JVal) (hwf : wellFormedRaw raw cat = true) (hne : srcTopics ≠ []) :
    ∃ out, domainMapPipeline raw cat srcTopics = .ok out ∧
      bandInjectedOK (normalizeDomainMap raw cat) out "Core" cat
        (srcTopics.getD (0 % srcTopics.length) JVal.null) ∧
      bandInjectedOK (normalizeDomainMap raw cat) out "Adjacent" cat
        (srcTopics.getD (1 % srcTopics.length) JVal.null) ∧
      bandInjectedOK (normalizeDomainMap raw cat) out "Peripheral" cat
        (srcTopics.getD (2 % srcTopics.length) JVal.null) := by
  obtain ⟨fields, T, hn, hT, h1, h2, h3⟩ := normalize_wf raw cat hwf
  obtain ⟨out, he, hcore, hadj, hper⟩ :=
    injectFallback_spec fields T cat srcTopics hne hT h1 h2 h3
  unfold domainMapPipeline
  rw [hn]
  exact ⟨out, he, hcore, hadj, hper⟩

/-- Witness for C1 at the concrete input of the repository's own test
`test_generate_domain_map_fallback_distribution`: raw upstream value `{}`
(the JSON decode of the mocked LLM reply), category `"Social"`, three source
topics. -/
theorem generate_domain_map_fallback_injection_witness :
    ∃ out, domainMapPipeline (JVal.obj []) "Social"
        [JVal.str "Topic One", JVal.str "Topic Two", JVal.str "Topic Three"] = .ok out ∧
      bandInjectedOK (normalizeDomainMap (JVal.obj []) "Social") out "Core" "Social"
        ([JVal.str "Topic One", JVal.str "Topic Two", JVal.str "Topic Three"].getD (0 % 3) JVal.null) ∧
      bandInjectedOK (normalizeDomainMap (JVal.obj []) "Social") out "Adjacent" "Social"
        ([JVal.str "Topic One", JVal.str "Topic Two", JVal.str "Topic Three"].getD (1 % 3) JVal.null) ∧
      bandInjectedOK (normalizeDomainMap (JVal.obj []) "Social") out "Peripheral" "Social"
        ([JVal.str "Topic One", JVal.str "Topic Two", JVal.str "Topic Three"].getD (2 % 3) JVal.null) :=
  generate_domain_map_fallback_injection (JVal.obj []) "Social"
    [JVal.str "Topic One", JVal.str "Topic Two", JVal.str "Topic Three"] rfl (by simp)

/-- C8: `_normalize_domain_map` on an already-canonical input — a dict whose
`topics` key holds a dict — returns the input unchanged. -/
theorem normalizeDomainMap_identity_on_canonical (fields T : List (String × JVal))
    (cat : String) (h : objGet fields "topics" = some (.obj T)) :
    normalizeDomainMap (.obj fields) cat = .obj fields :=
  normalize_canonical fields cat T h

/-- Witness for C8 at the canonical value used in the repository's test
`test_normalize_domain_map_variants`. -/
theorem normalizeDomainMap_identity_on_canonical_witness :
    normalizeDomainMap (JVal.obj [("topics", JVal.obj
        [("Core", JVal.obj [("Tech", JVal.arr [JVal.str "B"])]),
         ("Adjacent", JVal.obj [("Tech", JVal.arr [])]),
         ("Peripheral", JVal.obj [("Tech", JVal.arr [])])])]) "Tech"
      = JVal.obj [("topics", JVal.obj
        [("Core", JVal.obj [("Tech", JVal.arr [JVal.str "B"])]),
         ("Adjacent", JVal.obj [("Tech", JVal.arr [])]),
         ("Peripheral", JVal.obj [("Tech", JVal.arr [])])])] :=
  normalizeDomainMap_identity_on_canonical _
    [("Core", JVal.obj [("Tech", JVal.arr [JVal.str "B"])]),
     ("Adjacent", JVal.obj [("Tech", JVal.arr [])]),
     ("Peripheral", JVal.obj [("Tech", JVal.arr [])])] "Tech" rfl

/-- C4 counterexample: the claim "normalization and fallback injection never
raise on arbitrary garbage" is false — on the garbage dict
`{"topics": {"Core": ["a"]}}` (a dict-valued `topics` whose band value is a
list, not a category map) with a non-empty source topic list, the injection
step calls `.get` on a list and raises `AttributeError`. -/
theorem domainMapPipeline_raises_on_noncanonical_topics :
    domainMapPipeline
        (JVal.obj [("topics", JVal.obj [("Core", JVal.arr [JVal.str "a"])])])
        "Tech" [JVal.str "t"]
      = .error PyErr.attributeError := rfl

/-- C4 amended: totality holds on the non-dict and flat input shapes — for
every non-dict value or flat dict with well-formed band entries and every
non-empty source topic list, the normalization-plus-injection step returns a
value of the canonical DomainMap shape without raising. -/
theorem domainMapPipeline_total_on_flat (raw : JVal) (cat : String)
    (srcTopics : List JVal) (hfl : flatOrNonDict raw cat = true) (hne : srcTopics ≠ []) :
    ∃ out, domainMapPipeline raw cat srcTopics = .ok out ∧ isCanonicalDM out cat = true := by
  have hwf : wellFormedRaw raw cat = true := by
    rcases raw with _ | b | q | s | l | fields
    · rfl
    · rfl
    · rfl
    · rfl
    · rfl
    · rcases hts : objGet fields "topics" with _ | v
      · have hfl' := hfl
        simp only [flatOrNonDict, hts] at hfl'
        simpa [wellFormedRaw, hts] using hfl'
      · rcases v with _ | b | q | s | l | T
        case obj => simp [flatOrNonDict, hts] at hfl
        all_goals {
          have hfl' := hfl
          simp only [flatOrNonDict, hts] at hfl'
          simpa [wellFormedRaw, hts] using hfl' }
  obtain ⟨fields, T, hn, hT, h1, h2, h3⟩ := normalize_wf raw cat hwf
  obtain ⟨out, he, ⟨lc, gc, _, _, _⟩, ⟨la, ga, _, _, _⟩, ⟨lp, gp, _, _, _⟩⟩ :=
    injectFallback_spec fields T cat srcTopics hne hT h1 h2 h3
  refine ⟨out, ?_, ?_⟩
  · unfold domainMapPipeline
    rw [hn]
    exact he
  · simp [isCanonicalDM, gc, ga, gp]

/-- Witness for C4's amended theorem on the flat input
`{"Core": ["A"], "Adjacent": ["B"], "Peripheral": ["C"]}` used by the
repository's test `test_generate_domain_map_fenced`. -/
theorem domainMapPipeline_total_on_flat_witness :
    ∃ out, domainMapPipeline
        (JVal.obj [("Core", JVal.arr [JVal.str "A"]), ("Adjacent", JVal.arr [JVal.str "B"]),
          ("Peripheral", JVal.arr [JVal.str "C"])]) "Tech" [JVal.str "A"] = .ok out ∧
      isCanonicalDM out "Tech" = true :=
  domainMapPipeline_total_on_flat
    (JVal.obj [("Core", JVal.arr [JVal.str "A"]), ("Adjacent", JVal.arr [JVal.str "B"]),
      ("Peripheral", JVal.arr [JVal.str "C"])]) "Tech" [JVal.str "A"] rfl (by simp)

/-- C3 corrected (general part): for every scenario-score dict item missing
`overall_score` whose dimension entries are numeric (absent ones contributing
0 via `item.get(k, 0)`), `score_scenarios` stores the weighted sum
`impact*0.3 + plausibility*0.25 + novelty*0.2 + clarity*0.15 +
uncertainty_coverage*0.1` rounded to 2 decimal places. -/
theorem score_scenarios_recomputes_missing_overall (fields : List (String × JVal))
    (i p n c u : ℚ)
    (hmiss : objGet fields "overall_score" = none)
    (hi : dimVal fields "impact" = some i) (hp : dimVal fields "plausibility" = some p)
    (hn : dimVal fields "novelty" = some n) (hc : dimVal fields "clarity" = some c)
    (hu : dimVal fields "uncertainty_coverage" = some u) :
    ensureOverallScore (.obj fields) = .ok (.obj (objSet fields "overall_score"
      (.num (round2 (i * 0.3 + p * 0.25 + n * 0.2 + c * 0.15 + u * 0.1))))) := by
  simp [ensureOverallScore, hmiss, hi, hp, hn, hc, hu]

/-- Witness for C3's general theorem at the dimensions of the spec's example. -/
theorem score_scenarios_recomputes_missing_overall_witness :
    ensureOverallScore (JVal.obj
      [("impact", JVal.num 3), ("plausibility", JVal.num 3), ("novelty", JVal.num 3),
       ("clarity", JVal.num 3), ("uncertainty_coverage", JVal.num 2)])
    = .ok (JVal.obj (objSet
      [("impact", JVal.num 3), ("plausibility", JVal.num 3), ("novelty", JVal.num 3),
       ("clarity", JVal.num 3), ("uncertainty_coverage", JVal.num 2)] "overall_score"
      (JVal.num (round2 ((3:ℚ) * 0.3 + 3 * 0.25 + 3 * 0.2 + 3 * 0.15 + 2 * 0.1))))) :=
  score_scenarios_recomputes_missing_overall
    [("impact", JVal.num 3), ("plausibility", JVal.num 3), ("novelty", JVal.num 3),
     ("clarity", JVal.num 3), ("uncertainty_coverage", JVal.num 2)]
    3 3 3 3 2 rfl rfl rfl rfl rfl rfl

/-- C3 counterexample: at the spec's example dimensions
`{impact:3, plausibility:3, novelty:3, clarity:3, uncertainty_coverage:2}` the
code computes `overall_score = 2.9`, not `3.0` as the claim states. -/
theorem score_scenarios_example_is_2_9_not_3_0 :
    ensureOverallScore (JVal.obj
      [("impact", JVal.num 3), ("plausibility", JVal.num 3), ("novelty", JVal.num 3),
       ("clarity", JVal.num 3), ("uncertainty_coverage", JVal.num 2)])
    = .ok (JVal.obj
      [("impact", JVal.num 3), ("plausibility", JVal.num 3), ("novelty", JVal.num 3),
       ("clarity", JVal.num 3), ("uncertainty_coverage", JVal.num 2),
       ("overall_score", JVal.num 2.9)]) ∧ (2.9 : ℚ) ≠ 3.0 := by
  constructor
  · have h29 : round2 ((3:ℚ) * 0.3 + 3 * 0.25 + 3 * 0.2 + 3 * 0.15 + 2 * 0.1) = 2.9 := by
      unfold round2
      rw [round_eq]
      norm_num
    simp [ensureOverallScore, dimVal, toNumQ, objGet, objSet, h29]
  · norm_num

/-- C10: `configure_timings` clamps every supplied `poll_interval` or
`max_cycles` below 1 up to 1 (storing `max(1, value)`), so starting from a
state with positive interval and cycle budget, both stay at least 1 after any
call. -/
theorem configure_timings_clamps (st : TimingConfig) (poll_interval max_cycles : Option Int)
    (debug : Option Bool)
    (h1 : 1 ≤ st.POLL_INTERVAL_SECONDS) (h2 : 1 ≤ st.MAX_POLL_CYCLES) :
    1 ≤ (configure_timings st poll_interval max_cycles debug).POLL_INTERVAL_SECONDS ∧
    1 ≤ (configure_timings st poll_interval max_cycles debug).MAX_POLL_CYCLES ∧
    (∀ p, poll_interval = some p →
      (configure_timings st poll_interval max_cycles debug).POLL_INTERVAL_SECONDS = max 1 p) ∧
    (∀ m, max_cycles = some m →
      (configure_timings st poll_interval max_cycles debug).MAX_POLL_CYCLES = max 1 m) := by
  rcases poll_interval with _ | p <;> rcases max_cycles with _ | m <;> rcases debug with _ | d <;>
    simp [configure_timings, h1, h2, le_max_left]

/-- Witness for C10: configuring with `poll_interval=0` and `max_cycles=-5`
from the module defaults. -/
theorem configure_timings_clamps_witness :
    1 ≤ (configure_timings defaultTimings (some 0) (some (-5)) none).POLL_INTERVAL_SECONDS ∧
    1 ≤ (configure_timings defaultTimings (some 0) (some (-5)) none).MAX_POLL_CYCLES ∧
    (∀ p, (some (0:Int)) = some p →
      (configure_timings defaultTimings (some 0) (some (-5)) none).POLL_INTERVAL_SECONDS = max 1 p) ∧
    (∀ m, (some (-5:Int)) = some m →
      (configure_timings defaultTimings (some 0) (some (-5)) none).MAX_POLL_CYCLES = max 1 m) :=
  configure_timings_clamps defaultTimings (some 0) (some (-5)) none (by decide) (by decide)

/-- C7: under a configured cycle budget of 2 (`configure_timings` with
`max_cycles=2`), a job whose polls all report `in_progress` is polled exactly
2 times and the loop returns the literal timeout sentinel
`"Error: Deep research timed out waiting for completion."` instead of
raising. -/
theorem poll_loop_times_out_after_two (rest : List PollStatus) :
    pollLoop
      (configure_timings defaultTimings none (some 2) none).MAX_POLL_CYCLES.toNat
      (.inProgress :: .inProgress :: rest)
      = some (timeoutSentinel, 2) := rfl

theorem searchGo_first_event (maxRetries attempt : Nat) (ep : Endpoint)
    (o : NetOutcome) (env : List NetOutcome) (jitters : List ℚ)
    (h : attempt < maxRetries) :
    ∃ res evs, searchGo maxRetries attempt ep (o :: env) jitters
      = (res, .attempt ep :: evs) := by
  have hnot : ¬ maxRetries ≤ attempt := not_le.mpr h
  rcases o with rs | _ | status
  · rcases hn : normalizeResults rs with e | out
    · exact ⟨.raise e, [], by rw [searchGo]; simp [hnot, hn]⟩
    · exact ⟨.ok out, [], by rw [searchGo]; simp [hnot, hn]⟩
  · by_cases h1 : maxRetries ≤ attempt + 1
    · exact ⟨.ok [], [], by rw [searchGo]; simp [hnot, h1]⟩
    · exact ⟨(searchGo maxRetries (attempt + 1) ep env jitters.tail).1,
        .sleep (BASE_BACKOFF * 2 ^ attempt + jitters.headD 0) ::
          (searchGo maxRetries (attempt + 1) ep env jitters.tail).2,
        by rw [searchGo]; simp [hnot, h1]⟩
  · by_cases h404 : status = some 404 ∧ ep = .primary
    · exact ⟨(searchGo maxRetries attempt .fallback env jitters).1,
        (searchGo maxRetries attempt .fallback env jitters).2,
        by rw [searchGo]; simp [hnot, h404.1, h404.2]⟩
    · by_cases h5 : is5xx status = true
      · by_cases h1 : maxRetries ≤ attempt + 1
        · exact ⟨.ok [], [], by rw [searchGo]; simp [hnot, h404, h5, h1]⟩
        · exact ⟨(searchGo maxRetries (attempt + 1) ep env jitters.tail).1,
            .sleep (BASE_BACKOFF * 2 ^ attempt + jitters.headD 0) ::
              (searchGo maxRetries (attempt + 1) ep env jitters.tail).2,
            by rw [searchGo]; simp [hnot, h404, h5, h1]⟩
      · exact ⟨.raise (.httpError status), [],
          by rw [searchGo]; simp [hnot, h404, h5]⟩

/-- C5: a 404 received while the loop still targets the primary endpoint makes
it switch to the legacy fallback endpoint and continue with the same attempt
counter — the retry budget is not decremented by the switch — and the next
network attempt, when one happens, targets the fallback endpoint. -/
theorem search_404_switches_to_fallback (maxRetries attempt : Nat)
    (envRest : List NetOutcome) (jitters : List ℚ) (h : attempt < maxRetries) :
    searchGo maxRetries attempt .primary (.httpErr (some 404) :: envRest) jitters
      = ((searchGo maxRetries attempt .fallback envRest jitters).1,
         .attempt .primary :: (searchGo maxRetries attempt .fallback envRest jitters).2) ∧
    (∀ o env', envRest = o :: env' →
      ∃ res evs, searchGo maxRetries attempt .fallback envRest jitters
        = (res, .attempt .fallback :: evs)) := by
  constructor
  · rw [searchGo]
    simp [not_le.mpr h]
  · intro o env' he
    subst he
    exact searchGo_first_event maxRetries attempt .fallback o env' jitters h

/-- Witness for C5: one 404 on the primary endpoint followed by a successful
attempt, with the default retry budget of 3. -/
theorem search_404_switches_to_fallback_witness :
    searchGo 3 0 .primary (.httpErr (some 404) :: [.ok []]) []
      = ((searchGo 3 0 .fallback [.ok []] []).1,
         .attempt .primary :: (searchGo 3 0 .fallback [.ok []] []).2) ∧
    (∀ o env', [NetOutcome.ok []] = o :: env' →
      ∃ res evs, searchGo 3 0 .fallback [.ok []] []
        = (res, .attempt .fallback :: evs)) :=
  search_404_switches_to_fallback 3 0 [.ok []] [] (by decide)

/-- C6: with the default `max_retries = 3`, two network-level failures
followed by a success return the normalized result list after exactly 3
network attempts, sleeping `0.4 + jitter₁` then `0.8 + jitter₂` seconds in
between (base 0.4 doubled per attempt, jitter up to 0.2); and when all 3
attempts fail at network level the run returns the empty list after exactly 3
attempts. -/
theorem search_two_netfails_then_success (rs out : List JVal) (j1 j2 : ℚ)
    (hn : normalizeResults rs = .ok out)
    (hj1 : 0 ≤ j1 ∧ j1 ≤ 0.2) (hj2 : 0 ≤ j2 ∧ j2 ≤ 0.2) :
    searchFn true 3 [.netErr, .netErr, .ok rs] [j1, j2]
      = (.ok out, [.attempt .primary, .sleep (0.4 + j1), .attempt .primary,
          .sleep (0.8 + j2), .attempt .primary]) ∧
    searchFn true 3 [.netErr, .netErr, .netErr] [j1, j2]
      = (.ok [], [.attempt .primary, .sleep (0.4 + j1), .attempt .primary,
          .sleep (0.8 + j2), .attempt .primary]) := by
  constructor
  · rw [searchFn]
    rw [searchGo, searchGo, searchGo]
    norm_num [hn, BASE_BACKOFF]
  · rw [searchFn]
    rw [searchGo, searchGo, searchGo]
    norm_num [BASE_BACKOFF]

/-- Witness for C6: one raw upstream result in the legacy
`title`/`snippet`/`link` shape. -/
theorem search_two_netfails_then_success_witness :
    searchFn true 3
        [.netErr, .netErr, .ok [JVal.obj [("title", JVal.str "A"),
          ("snippet", JVal.str "S"), ("link", JVal.str "http://a")]]]
        [0.1, 0.2]
      = (.ok [JVal.obj [("title", JVal.str "A"), ("snippet", JVal.str "S"),
          ("link", JVal.str "http://a")]],
         [.attempt .primary, .sleep (0.4 + 0.1), .attempt .primary,
          .sleep (0.8 + 0.2), .attempt .primary]) ∧
    searchFn true 3 [.netErr, .netErr, .netErr] [0.1, 0.2]
      = (.ok [], [.attempt .primary, .sleep (0.4 + 0.1), .attempt .primary,
          .sleep (0.8 + 0.2), .attempt .primary]) :=
  search_two_netfails_then_success
    [JVal.obj [("title", JVal.str "A"), ("snippet", JVal.str "S"),
      ("link", JVal.str "http://a")]]
    [JVal.obj [("title", JVal.str "A"), ("snippet", JVal.str "S"),
      ("link", JVal.str "http://a")]]
    0.1 0.2 rfl (by norm_num) (by norm_num)

/-- C9: on `"# Alpha\n# Alpha\n## Beta\n## Gamma\n## Delta"` with cap 3 the
heading heuristic deduplicates the repeated `Alpha` case-insensitively,
preserves first-seen order, stops at the cap, and yields exactly
`["Alpha", "Beta", "Gamma"]`. -/
theorem heuristic_topics_dedup_cap :
    heuristicTopics "# Alpha\n# Alpha\n## Beta\n## Gamma\n## Delta" 3
      = ["Alpha", "Beta", "Gamma"] := rfl

/-- C2 counterexample: when the reply parses as the empty JSON object `{}` and
the report text is empty, `parse_research` returns `{}` — none of the keys
`topics`, `entities`, `concepts` is present, contradicting the claim that all
three are always present. -/
theorem parse_research_can_lack_keys :
    parse_research_post (some (JVal.obj [])) none "" = JVal.obj [] ∧
    hasKey (parse_research_post (some (JVal.obj [])) none "") "topics" = false ∧
    hasKey (parse_research_post (some (JVal.obj [])) none "") "entities" = false ∧
    hasKey (parse_research_post (some (JVal.obj [])) none "") "concepts" = false :=
  ⟨rfl, rfl, rfl, rfl⟩

/-- C2 amended: `parse_research` never raises — it always returns a dict — and
whenever the JSON extraction does not produce a dict (malformed reply, failed
fenced fallback, or non-dict JSON), the returned record carries all three keys
`topics`, `entities`, `concepts`; only a successfully parsed dict can lack
keys, and it is returned as parsed with `topics` possibly backfilled. -/
theorem parse_research_keys_on_parse_failure (direct fenced : Option JVal)
    (dr_text : String)
    (h : ∀ f, extractData direct fenced ≠ some (JVal.obj f)) :
    (∃ g, parse_research_post direct fenced dr_text = JVal.obj g) ∧
    hasKey (parse_research_post direct fenced dr_text) "topics" = true ∧
    hasKey (parse_research_post direct fenced dr_text) "entities" = true ∧
    hasKey (parse_research_post direct fenced dr_text) "concepts" = true := by
  have hf : (match extractData direct fenced with
      | some (.obj f) => f
      | _ => defaultParsedFields) = defaultParsedFields := by
    rcases he : extractData direct fenced with _ | v
    · rfl
    · rcases v with _ | b | q | s | l | f
      · rfl
      · rfl
      · rfl
      · rfl
      · rfl
      · exact absurd he (h f)
  simp only [parse_research_post, hf]
  split
  · exact ⟨⟨_, rfl⟩, rfl, rfl, rfl⟩
  · exact ⟨⟨_, rfl⟩, rfl, rfl, rfl⟩

/-- Witness for C2's amended theorem: a reply that is not JSON at all
(`direct` and `fenced` both fail), with the report text of the repository's
test `test_parse_research_returns_structured_json_when_available`. -/
theorem parse_research_keys_on_parse_failure_witness :
    (∃ g, parse_research_post none none "Some DR text" = JVal.obj g) ∧
    hasKey (parse_research_post none none "Some DR text") "topics" = true ∧
    hasKey (parse_research_post none none "Some DR text") "entities" = true ∧
    hasKey (parse_research_post none none "Some DR text") "concepts" = true :=
  parse_research_keys_on_parse_failure none none "Some DR text"
    (fun f he => Option.noConfusion he)
